/-
Verification of the circuit-simulator core in `src/app/page.tsx`.

The data model (Gate, Wire), the evaluator `calculateGateOutput`, the
whole-graph refresh `updateCircuit`, and the structural mutations
(`addGate`, `toggleInput`, `completeConnection`, `deleteSelected`,
`clearCircuit`, gate dragging) are embedded as executable Lean functions.
JavaScript particulars are kept: truthiness of input-slot entries
(`!inputGateId` is true for `null` and for the empty string),
`Array.prototype.findIndex` (modelled with an `Option Nat` result in place
of `-1`), `Array.prototype.indexOf` (result in `Int`, `-1` when absent),
and first-match `Array.prototype.find`.

The source evaluator recurses without a guard; the embedding adds an
explicit fuel parameter, where `none` means the recursion would descend
deeper than the supplied bound.  Numeric screen positions (floats in the
source, never read by the evaluation core) are modelled as integers.

The React refresh effect re-runs `updateCircuit` exactly when its
dependency array changed: the `wires` array reference (replaced by every
`setWires` call) or the comma-join of the stored outputs of the INPUT
gates.  Each user-level event is therefore modelled as the store mutation
followed by the refresh exactly under that condition, and `Reachable`
closes the initial empty state under those event steps.
-/
import Mathlib

set_option linter.unusedVariables false

inductive GateType where
  | AND
  | OR
  | NOT
  | INPUT
  | OUTPUT
deriving DecidableEq, Repr

/-- `interface Gate` of the source.  `x`/`y` are display positions only. -/
structure Gate where
  id : String
  type : GateType
  x : Int
  y : Int
  inputs : List (Option String)
  output : Bool
  label : Option String
deriving DecidableEq, Repr

/-- `interface Wire`: `from: { gateId, output }`, `to: { gateId, inputIndex }`. -/
structure Wire where
  id : String
  fromGateId : String
  fromOutput : Bool
  toGateId : String
  toInputIndex : Nat
deriving DecidableEq, Repr

/-- The two React state arrays `gates` and `wires`. -/
structure CircuitState where
  gates : List Gate
  wires : List Wire
deriving DecidableEq, Repr

/-- JavaScript truthiness test `!inputGateId` on a `string | null` value:
true for `null` and for the empty string. -/
def jsFalsy : Option String → Bool
  | none => true
  | some str => str == ""

/-- `Array.prototype.findIndex`, with `none` in place of `-1`. -/
def jsFindIndex (p : α → Bool) : List α → Option Nat
  | [] => none
  | a :: l => if p a then some 0 else (jsFindIndex p l).map (· + 1)

/-- `Array.prototype.indexOf` (strict equality), `-1` when absent. -/
def jsIndexOf (l : List (Option String)) (a : Option String) : Int :=
  match l with
  | [] => -1
  | b :: t =>
    if b = a then 0
    else
      let r := jsIndexOf t a
      if r = -1 then -1 else r + 1

/-- The `switch (gate.type)` of `calculateGateOutput`, applied to the list of
resolved slot values.  Out-of-range reads (`inputValues[0]` on an empty
array) behave as the JavaScript `undefined`: `!undefined` is `true` and
`undefined || false` is `false`, which `getD false` reproduces. -/
def applyGate (t : GateType) (vals : List Bool) : Bool :=
  match t with
  | GateType.AND => vals.length == 2 && vals.getD 0 false && vals.getD 1 false
  | GateType.OR => vals.length == 2 && (vals.getD 0 false || vals.getD 1 false)
  | GateType.NOT => !(vals.getD 0 false)
  | GateType.OUTPUT => vals.getD 0 false
  | GateType.INPUT => false

/-- One slot of the `gate.inputs.map((inputGateId, idx) => ...)` callback:
a falsy entry reads as `false`; otherwise the first wire into
`(gate.id, idx)` is looked up, then its source gate, and the source gate is
evaluated recursively (`rec`).  Any missing piece reads as `false`. -/
def slotOne (s : CircuitState) (g : Gate) (rec : Gate → Option Bool)
    (idx : Nat) (entry : Option String) : Option Bool :=
  if jsFalsy entry then some false
  else
    match s.wires.find? (fun w => w.toGateId == g.id && w.toInputIndex == idx) with
    | none => some false
    | some w =>
      match s.gates.find? (fun sg => sg.id == w.fromGateId) with
      | none => some false
      | some sg => rec sg

/-- The indexed map over `gate.inputs`, threading the slot index. -/
def slotValsF (s : CircuitState) (g : Gate) (rec : Gate → Option Bool) :
    Nat → List (Option String) → Option (List Bool)
  | _, [] => some []
  | idx, entry :: rest =>
    match slotOne s g rec idx entry with
    | none => none
    | some v =>
      match slotValsF s g rec (idx + 1) rest with
      | none => none
      | some vs => some (v :: vs)

/-- `calculateGateOutput`, with fuel bounding the recursion depth.
`none` means the unbounded source recursion would descend deeper than the
fuel allows. -/
def calcN : Nat → CircuitState → Gate → Option Bool
  | 0, _, _ => none
  | n + 1, s, g =>
    if g.type = GateType.INPUT then some g.output
    else (slotValsF s g (fun sg => calcN n s sg) 0 g.inputs).map (applyGate g.type)

/-- The output that `calculateGateOutput` produces when none of a gate's
slots resolves through a wire: every slot reads as `false`. -/
def gateDefaultOut (g : Gate) : Bool :=
  if g.type = GateType.INPUT then g.output
  else applyGate g.type (List.replicate g.inputs.length false)

/-- `updateCircuit`: rewrite every gate's stored `output` with its freshly
computed value.  The fuel `gates.length + 1` is immaterial on states the
program reaches (no descent ever happens there, proved below). -/
def updateCircuit (s : CircuitState) : CircuitState :=
  { s with gates := s.gates.map (fun g =>
      { g with output := (calcN (s.gates.length + 1) s g).getD false }) }

/-- `addGate`: fresh gate appended; `id` stands for `gate-${Date.now()}` and
`x`/`y` for the random screen position.  `inputs` per kind as in the source
(`NOT`/`INPUT` get `[null]`, `OUTPUT` gets `[null]`, else `[null, null]`);
`output` starts `false` for every kind. -/
def addGate (s : CircuitState) (id : String) (ty : GateType) (x y : Int) : CircuitState :=
  { s with gates := s.gates ++ [{
      id := id
      type := ty
      x := x
      y := y
      inputs :=
        if ty = GateType.NOT ∨ ty = GateType.INPUT then [none]
        else if ty = GateType.OUTPUT then [none] else [none, none]
      output := false
      label :=
        if ty = GateType.INPUT then some ("IN")
        else if ty = GateType.OUTPUT then some ("OUT") else none }] }

/-- `toggleInput`: flip `output` of the gate whose id matches, but only when
that gate is of kind INPUT; every other gate (and a non-INPUT match) is
returned unchanged.  No error value exists in the source. -/
def toggleInput (s : CircuitState) (gid : String) : CircuitState :=
  { s with gates := s.gates.map (fun g =>
      if g.id == gid && g.type == GateType.INPUT then { g with output := !g.output } else g) }

/-- Gate dragging (`handleCanvasMouseMove`): position update of the selected
gate only. -/
def moveGate (s : CircuitState) (gid : String) (x y : Int) : CircuitState :=
  { s with gates := s.gates.map (fun g =>
      if g.id == gid then { g with x := x, y := y } else g) }

/-- `deleteSelected`: drop every wire whose source or destination is the
selected gate, and drop the gate itself; no-op without a selection. -/
def deleteSelected (s : CircuitState) (sel : Option String) : CircuitState :=
  match sel with
  | none => s
  | some sid =>
    { gates := s.gates.filter (fun g => !(g.id == sid))
      wires := s.wires.filter (fun w => !(w.fromGateId == sid) && !(w.toGateId == sid)) }

/-- `clearCircuit`. -/
def clearCircuit : CircuitState := { gates := [], wires := [] }

/-- How `completeConnection` ended: an early return (no selection, unknown
target, or INPUT target), the `All inputs are connected` alert, or a wire
added at the found slot. -/
inductive ConnOutcome where
  | noTarget
  | allConnected
  | connected (slot : Nat)
deriving DecidableEq, Repr

/-- The `findIndex` callback of `completeConnection`: a slot entry counts as
free when no wire ends at `(toGate.id, toGate.inputs.indexOf(input))`. -/
def connPred (s : CircuitState) (toGate : Gate) (input : Option String) : Bool :=
  !(s.wires.any (fun w =>
      w.toGateId == toGate.id && ((w.toInputIndex : Int) == jsIndexOf toGate.inputs input)))

/-- `completeConnection`: guards, free-slot search, wire creation.  `cf` is
`connectingFrom?.gateId`, `sel` the selected gate id, `wid` stands for
`wire-${Date.now()}`; the new wire's `from.output` flag is `true` as in the
source. -/
def completeConnection (s : CircuitState) (cf sel : Option String) (wid : String) :
    CircuitState × ConnOutcome :=
  match cf, sel with
  | some cfId, some selId =>
    (match s.gates.find? (fun g => g.id == selId) with
     | none => (s, ConnOutcome.noTarget)
     | some toGate =>
       if toGate.type = GateType.INPUT then (s, ConnOutcome.noTarget)
       else
         match jsFindIndex (connPred s toGate) toGate.inputs with
         | none => (s, ConnOutcome.allConnected)
         | some idx =>
           ({ s with wires := s.wires ++ [{
                id := wid
                fromGateId := cfId
                fromOutput := true
                toGateId := selId
                toInputIndex := idx }] },
            ConnOutcome.connected idx))
  | _, _ => (s, ConnOutcome.noTarget)

/-- The second dependency of the refresh effect: the stored outputs of the
INPUT gates, in order (the comma-join of booleans is injective, so the list
itself is an exact model of the joined string). -/
def inputSig (s : CircuitState) : List Bool :=
  (s.gates.filter (fun g => g.type == GateType.INPUT)).map (fun g => g.output)

/-- User event: add a gate.  `setWires` is not called, so the refresh runs
exactly when the INPUT-signature dependency changed. -/
def addGateStep (s : CircuitState) (id : String) (ty : GateType) (x y : Int) : CircuitState :=
  let t := addGate s id ty x y
  if inputSig t = inputSig s then t else updateCircuit t

/-- User event: toggle an input.  Refresh exactly when the INPUT signature
changed (a successful toggle flips one entry; a no-op changes nothing). -/
def toggleInputStep (s : CircuitState) (gid : String) : CircuitState :=
  let t := toggleInput s gid
  if inputSig t = inputSig s then t else updateCircuit t

/-- User event: drag a gate.  Positions never enter the INPUT signature. -/
def moveGateStep (s : CircuitState) (gid : String) (x y : Int) : CircuitState :=
  let t := moveGate s gid x y
  if inputSig t = inputSig s then t else updateCircuit t

/-- User event: complete a connection.  `setWires` (a fresh array reference)
is called exactly on the `connected` path, so exactly that path refreshes. -/
def completeConnectionStep (s : CircuitState) (cf sel : Option String) (wid : String) :
    CircuitState :=
  let r := completeConnection s cf sel wid
  match r.2 with
  | ConnOutcome.connected _ => updateCircuit r.1
  | _ => r.1

/-- User event: delete the selected gate.  `setWires(wires.filter(...))`
always installs a fresh array reference, so the refresh always runs. -/
def deleteSelectedStep (s : CircuitState) (sel : Option String) : CircuitState :=
  match sel with
  | none => s
  | some sid => updateCircuit (deleteSelected s (some sid))

/-- User event: clear everything (`setWires([])` refreshes the empty state). -/
def clearCircuitStep (s : CircuitState) : CircuitState := updateCircuit clearCircuit

/-- States the running program can be in: the empty initial state closed
under the user-level events. -/
inductive Reachable : CircuitState → Prop where
  | init : Reachable clearCircuit
  | add (s : CircuitState) (id : String) (ty : GateType) (x y : Int) :
      Reachable s → Reachable (addGateStep s id ty x y)
  | toggle (s : CircuitState) (gid : String) :
      Reachable s → Reachable (toggleInputStep s gid)
  | move (s : CircuitState) (gid : String) (x y : Int) :
      Reachable s → Reachable (moveGateStep s gid x y)
  | connect (s : CircuitState) (cf sel : Option String) (wid : String) :
      Reachable s → Reachable (completeConnectionStep s cf sel wid)
  | delete (s : CircuitState) (sel : Option String) :
      Reachable s → Reachable (deleteSelectedStep s sel)
  | clear (s : CircuitState) :
      Reachable s → Reachable (clearCircuitStep s)

/-- The structural facts every reachable state satisfies: every entry of
every gate's `inputs` array is `null`, and every wire ends at slot 0. -/
def StateInv (s : CircuitState) : Prop :=
  (∀ g ∈ s.gates, ∀ x ∈ g.inputs, x = none) ∧ (∀ w ∈ s.wires, w.toInputIndex = 0)

/-- The store error vocabulary of the specification (§7). -/
inductive StoreError where
  | notAnInputGate
deriving DecidableEq, Repr

/-- Modelled from the spec: `setInputValue(gateId, value) -> Error(NotAnInputGate)
if gateId does not name an INPUT-kind gate` (§4.1).  The source has no such
operation with an error channel — its `toggleInput` silently ignores
non-INPUT ids — so this definition exists only to be contrasted with the
source's behaviour. -/
def specSetInputValue (s : CircuitState) (gid : String) (v : Bool) :
    Except StoreError CircuitState :=
  match s.gates.find? (fun g => g.id == gid) with
  | none => Except.error StoreError.notAnInputGate
  | some g =>
    if g.type = GateType.INPUT then
      Except.ok { s with gates := s.gates.map (fun g0 =>
        if g0.id == gid then { g0 with output := v } else g0) }
    else Except.error StoreError.notAnInputGate

/-- End-to-end scenario 3 of the spec: an INPUT gate whose stored value is
`true`, an OR gate, and a wire from the INPUT into the OR gate's slot 0. -/
def gateA : Gate :=
  { id := "A", type := GateType.INPUT, x := 0, y := 0,
    inputs := [none], output := true, label := some ("IN") }

def gateB : Gate :=
  { id := "B", type := GateType.OR, x := 0, y := 0,
    inputs := [none, none], output := false, label := none }

def wireAB : Wire :=
  { id := "w", fromGateId := "A", fromOutput := true, toGateId := "B", toInputIndex := 0 }

def sScenario3 : CircuitState := { gates := [gateA, gateB], wires := [wireAB] }

/-- The state right after adding a NOT gate to the empty circuit. -/
def sNotFresh : CircuitState := addGateStep clearCircuit ("g") GateType.NOT 0 0

/-- The NOT gate as `addGate` creates it. -/
def gateNFresh : Gate :=
  { id := "g", type := GateType.NOT, x := 0, y := 0,
    inputs := [none], output := false, label := none }

/-- A reachable cyclic state: one NOT gate wired back into its own slot 0. -/
def sCyc : CircuitState :=
  completeConnectionStep (addGateStep clearCircuit ("n1") GateType.NOT 0 0)
    (some ("n1")) (some ("n1")) ("w1")

/-- The NOT gate of `sCyc` after the refresh that follows the connection. -/
def gateNCyc : Gate :=
  { id := "n1", type := GateType.NOT, x := 0, y := 0,
    inputs := [none], output := true, label := none }

/-- A state with one AND gate and one NOT gate and no wires. -/
def gateAater : Gate :=
  { id := "a", type := GateType.AND, x := 0, y := 0,
    inputs := [none, none], output := false, label := none }

def gateNater : Gate :=
  { id := "n", type := GateType.NOT, x := 0, y := 0,
    inputs := [none], output := false, label := none }

def sNoWire : CircuitState := { gates := [gateAater, gateNater], wires := [] }

/-- A state whose only gate is an AND gate, for the toggle-on-non-INPUT case. -/
def sOnlyAnd : CircuitState := { gates := [gateAater], wires := [] }

/-- A reachable state holding one INPUT gate and one AND gate. -/
def sTwo : CircuitState :=
  addGateStep (addGateStep clearCircuit ("A2") GateType.INPUT 0 0) ("B2") GateType.AND 0 0

/-- The AND gate of `sTwo`. -/
def gateBAnd : Gate :=
  { id := "B2", type := GateType.AND, x := 0, y := 0,
    inputs := [none, none], output := false, label := none }

/-- `find?` over a mapped list searches the original list under the
composed predicate. -/
theorem find?_map_pres {α β : Type} (f : α → β) (p : β → Bool) (l : List α) :
    (l.map f).find? p = (l.find? (fun a => p (f a))).map f := by
  induction l with
  | nil => rfl
  | cons a t ih =>
    simp only [List.map_cons, List.find?_cons]
    cases hpa : p (f a) <;> simp [hpa, ih]

/-- A map that fixes every member is the identity. -/
theorem map_id_of_mem {α : Type} (f : α → α) (l : List α)
    (h : ∀ a ∈ l, f a = a) : l.map f = l := by
  induction l with
  | nil => rfl
  | cons a t ih =>
    simp only [List.map_cons]
    rw [h a (List.mem_cons_self a t), ih (fun a ha => h a (List.mem_cons_of_mem _ ha))]

/-- Unfolding equation of `calcN` at positive fuel. -/
theorem calcN_succ (n : Nat) (s : CircuitState) (g : Gate) :
    calcN (n + 1) s g =
      if g.type = GateType.INPUT then some g.output
      else (slotValsF s g (fun sg => calcN n s sg) 0 g.inputs).map (applyGate g.type) := rfl

/-- A `null` slot entry resolves to `false` without touching the wires. -/
theorem slotOne_null (s : CircuitState) (g : Gate) (rec : Gate → Option Bool)
    (idx : Nat) : slotOne s g rec idx none = some false := rfl

/-- When no wire ends at the gate, every slot resolves to `false`. -/
theorem slotOne_nowire (s : CircuitState) (g : Gate) (rec : Gate → Option Bool)
    (idx : Nat) (entry : Option String)
    (h : ∀ w ∈ s.wires, w.toGateId ≠ g.id) :
    slotOne s g rec idx entry = some false := by
  unfold slotOne
  by_cases hf : jsFalsy entry
  · rw [if_pos hf]
  · rw [if_neg hf]
    have hnone : s.wires.find? (fun w => w.toGateId == g.id && w.toInputIndex == idx) = none := by
      rw [List.find?_eq_none]
      intro w hw habs
      rw [Bool.and_eq_true] at habs
      exact h w hw (by rw [← beq_iff_eq]; exact habs.1)
    rw [hnone]

/-- If every slot resolves to `false`, the resolved list is all-`false`. -/
theorem slotValsF_const_false (s : CircuitState) (g : Gate) (rec : Gate → Option Bool)
    (l : List (Option String))
    (h : ∀ (idx : Nat), ∀ entry ∈ l, slotOne s g rec idx entry = some false) :
    ∀ start : Nat, slotValsF s g rec start l = some (List.replicate l.length false) := by
  induction l with
  | nil => intro start; rfl
  | cons e t ih =>
    intro start
    rw [slotValsF, h start e (List.mem_cons_self e t),
      ih (fun idx entry hm => h idx entry (List.mem_cons_of_mem _ hm)) (start + 1)]
    simp [List.replicate_succ]

/-- A gate whose `inputs` entries are all `null` evaluates, at any positive
fuel, to its wire-independent default value: the per-slot wire lookup is
never consulted. -/
theorem calc_null (s : CircuitState) (g : Gate)
    (h : ∀ x ∈ g.inputs, x = none) (n : Nat) :
    calcN (n + 1) s g = some (gateDefaultOut g) := by
  rw [calcN_succ, gateDefaultOut]
  by_cases hI : g.type = GateType.INPUT
  · rw [if_pos hI, if_pos hI]
  · rw [if_neg hI, if_neg hI,
      slotValsF_const_false s g _ g.inputs
        (fun idx entry hm => by rw [h entry hm]; exact slotOne_null s g _ idx) 0]
    rfl

/-- A gate with no incoming wire evaluates, at any positive fuel, to its
default value, whatever its `inputs` entries hold. -/
theorem calc_nowire (s : CircuitState) (g : Gate)
    (h : ∀ w ∈ s.wires, w.toGateId ≠ g.id) (n : Nat) :
    calcN (n + 1) s g = some (gateDefaultOut g) := by
  rw [calcN_succ, gateDefaultOut]
  by_cases hI : g.type = GateType.INPUT
  · rw [if_pos hI, if_pos hI]
  · rw [if_neg hI, if_neg hI,
      slotValsF_const_false s g _ g.inputs
        (fun idx entry hm => slotOne_nowire s g _ idx entry h) 0]
    rfl

/-- `jsFindIndex` returns the first index at which the predicate holds. -/
theorem jsFindIndex_spec {α : Type} (p : α → Bool) :
    ∀ (l : List α) (j : Nat), jsFindIndex p l = some j →
      ∃ hj : j < l.length, p (l.get ⟨j, hj⟩) = true ∧
        ∀ (k : Nat) (hk : k < l.length), k < j → p (l.get ⟨k, hk⟩) = false := by
  intro l
  induction l with
  | nil => intro j h; simp [jsFindIndex] at h
  | cons a t ih =>
    intro j h
    rw [jsFindIndex] at h
    by_cases hpa : p a
    · rw [if_pos hpa] at h
      have hj0 : j = 0 := by
        have := h
        injection this with h0
        omega
      subst hj0
      exact ⟨by simp, by simpa using hpa, fun k hk hkj => absurd hkj (by omega)⟩
    · rw [if_neg hpa] at h
      rcases ht : jsFindIndex p t with _ | j'
      · rw [ht] at h; simp at h
      · rw [ht] at h
        simp only [Option.map_some'] at h
        injection h with h1
        obtain ⟨hj', hp', hmin'⟩ := ih j' ht
        subst h1
        refine ⟨by simpa using Nat.succ_lt_succ hj', by simpa using hp', ?_⟩
        intro k hk hkj
        cases k with
        | zero => simpa using hpa
        | succ k' =>
          have hk' : k' < t.length := by simpa using hk
          have : k' < j' := by omega
          simpa using hmin' k' hk' this

/-- `jsIndexOf` of a member returns the index of its first occurrence. -/
theorem jsIndexOf_mem_spec :
    ∀ (l : List (Option String)) (a : Option String), a ∈ l →
      ∃ k : Nat, jsIndexOf l a = (k : Int) ∧
        ∃ hk : k < l.length, l.get ⟨k, hk⟩ = a ∧
          ∀ (m : Nat) (hm : m < l.length), m < k → l.get ⟨m, hm⟩ ≠ a := by
  intro l
  induction l with
  | nil => intro a ha; simp at ha
  | cons b t ih =>
    intro a ha
    by_cases hba : b = a
    · refine ⟨0, by rw [jsIndexOf, if_pos hba]; simp, by simp, by simpa using hba,
        fun m hm hmk => absurd hmk (by omega)⟩
    · have hat : a ∈ t := by
        rcases List.mem_cons.1 ha with h | h
        · exact absurd h.symm hba
        · exact h
      obtain ⟨k, hkeq, hk, hka, hkmin⟩ := ih a hat
      refine ⟨k + 1, ?_, ?_, ?_, ?_⟩
      · rw [jsIndexOf, if_neg hba]
        simp only
        rw [hkeq]
        rw [if_neg (by omega : ¬((k : Int) = -1))]
        push_cast
        ring
      · simpa using Nat.succ_lt_succ hk
      · simpa using hka
      · intro m hm hmk
        cases m with
        | zero => simpa using hba
        | succ m' =>
          have hm' : m' < t.length := by simpa using hm
          have : m' < k := by omega
          simpa using hkmin m' hm' this

/-- The slot that `completeConnection`'s free-slot search selects carries no
wire yet: whenever the search succeeds at `j`, no existing wire ends at
`(toGate.id, j)`. -/
theorem connected_slot_free (s : CircuitState) (toGate : Gate) (j : Nat)
    (h : jsFindIndex (connPred s toGate) toGate.inputs = some j) :
    ∀ w ∈ s.wires, ¬(w.toGateId = toGate.id ∧ w.toInputIndex = j) := by
  obtain ⟨hj, hpj, hmin⟩ := jsFindIndex_spec (connPred s toGate) toGate.inputs j h
  have hmem : toGate.inputs.get ⟨j, hj⟩ ∈ toGate.inputs := List.get_mem _ _ _
  obtain ⟨k, hkeq, hk, hka, hkmin⟩ :=
    jsIndexOf_mem_spec toGate.inputs (toGate.inputs.get ⟨j, hj⟩) hmem
  have hkj : k = j := by
    rcases Nat.lt_trichotomy k j with hlt | heq | hgt
    · exfalso
      have hsame : connPred s toGate (toGate.inputs.get ⟨k, hk⟩) =
          connPred s toGate (toGate.inputs.get ⟨j, hj⟩) := by rw [hka]
      have := hmin k hk hlt
      rw [hsame, hpj] at this
      exact Bool.true_eq_false.mp this
    · exact heq
    · exact absurd rfl (hkmin j hj hgt)
  intro w hw ⟨hwg, hwi⟩
  have hany : s.wires.any (fun w => w.toGateId == toGate.id &&
      ((w.toInputIndex : Int) == jsIndexOf toGate.inputs (toGate.inputs.get ⟨j, hj⟩))) = false := by
    have := hpj
    rw [connPred, Bool.not_eq_true'] at this
    exact this
  rw [List.any_eq_false] at hany
  apply hany w hw
  rw [Bool.and_eq_true]
  constructor
  · rw [beq_iff_eq]; exact hwg
  · rw [beq_iff_eq, hkeq, hkj, hwi]

/-- Every run of `completeConnection` is one of: an early return leaving the
state alone; the all-connected alert leaving the state alone; or a wire
appended at the slot found by the free-slot search. -/
theorem completeConnection_cases (s : CircuitState) (cf sel : Option String) (wid : String) :
    completeConnection s cf sel wid = (s, ConnOutcome.noTarget) ∨
    completeConnection s cf sel wid = (s, ConnOutcome.allConnected) ∨
    ∃ cfId selId toGate j,
      cf = some cfId ∧ sel = some selId ∧
      s.gates.find? (fun g => g.id == selId) = some toGate ∧
      toGate.type ≠ GateType.INPUT ∧
      jsFindIndex (connPred s toGate) toGate.inputs = some j ∧
      completeConnection s cf sel wid =
        ({ s with wires := s.wires ++ [⟨wid, cfId, true, selId, j⟩] }, ConnOutcome.connected j) := by
  cases cf with
  | none => left; rfl
  | some cfId =>
    cases sel with
    | none => left; rfl
    | some selId =>
      rcases hf : s.gates.find? (fun g => g.id == selId) with _ | toGate
      · left
        simp [completeConnection, hf]
      · by_cases hty : toGate.type = GateType.INPUT
        · left
          simp [completeConnection, hf, hty]
        · rcases hidx : jsFindIndex (connPred s toGate) toGate.inputs with _ | j
          · right; left
            simp [completeConnection, hf, hty, hidx]
          · right; right
            exact ⟨cfId, selId, toGate, j, rfl, rfl, hf, hty, hidx,
              by simp [completeConnection, hf, hty, hidx]⟩

/-- Slot-wise congruence for the indexed map. -/
theorem slotValsF_congr (s t : CircuitState) (g g2 : Gate)
    (rec rec2 : Gate → Option Bool)
    (h : ∀ (idx : Nat) (entry : Option String),
      slotOne t g2 rec2 idx entry = slotOne s g rec idx entry) :
    ∀ (idx : Nat) (l : List (Option String)),
      slotValsF t g2 rec2 idx l = slotValsF s g rec idx l := by
  intro idx l
  induction l generalizing idx with
  | nil => rfl
  | cons e rest ih =>
    rw [slotValsF, slotValsF, h idx e, ih (idx + 1)]

/-- Rewriting every gate's stored output leaves each slot resolution
unchanged, as long as id, kind, slot entries, and INPUT outputs survive and
the recursive evaluation agrees on the rewritten gates. -/
theorem slotOne_map (s : CircuitState) (f : Gate → Gate)
    (hid : ∀ g, (f g).id = g.id)
    (rec rec2 : Gate → Option Bool)
    (hrec : ∀ sg, rec2 (f sg) = rec sg)
    (g : Gate) (idx : Nat) (entry : Option String) :
    slotOne (CircuitState.mk (s.gates.map f) s.wires) (f g) rec2 idx entry =
      slotOne s g rec idx entry := by
  unfold slotOne
  by_cases hf : jsFalsy entry
  · rw [if_pos hf, if_pos hf]
  · rw [if_neg hf, if_neg hf]
    simp only [hid]
    rcases hw : s.wires.find? (fun w => w.toGateId == g.id && w.toInputIndex == idx) with _ | w
    · rw [hw]
    · rw [hw]
      show (match (s.gates.map f).find? (fun sg => sg.id == w.fromGateId) with
            | none => (some false : Option Bool)
            | some sg => rec2 sg) =
          (match s.gates.find? (fun sg => sg.id == w.fromGateId) with
            | none => some false
            | some sg => rec sg)
      rw [find?_map_pres]
      simp only [hid]
      rcases hg : s.gates.find? (fun sg => sg.id == w.fromGateId) with _ | sg
      · rw [hg]; rfl
      · rw [hg]
        simp only [Option.map_some']
        exact hrec sg

/-- Evaluation is invariant under rewriting stored outputs, at every fuel,
provided INPUT outputs are preserved (they are the only stored outputs the
evaluator reads). -/
theorem calcN_map_output (s : CircuitState) (f : Gate → Gate)
    (hid : ∀ g, (f g).id = g.id) (hty : ∀ g, (f g).type = g.type)
    (hin : ∀ g, (f g).inputs = g.inputs)
    (hout : ∀ g, g.type = GateType.INPUT → (f g).output = g.output) :
    ∀ (n : Nat) (g : Gate),
      calcN n (CircuitState.mk (s.gates.map f) s.wires) (f g) = calcN n s g := by
  intro n
  induction n with
  | zero => intro g; rfl
  | succ n ih =>
    intro g
    rw [calcN_succ, calcN_succ, hty, hin]
    by_cases hI : g.type = GateType.INPUT
    · rw [if_pos hI, if_pos hI, hout g hI]
    · rw [if_neg hI, if_neg hI]
      rw [slotValsF_congr s (CircuitState.mk (s.gates.map f) s.wires) g (f g)
        (fun sg => calcN n s sg) (fun sg => calcN n (CircuitState.mk (s.gates.map f) s.wires) sg)
        (slotOne_map s f hid (fun sg => calcN n s sg)
          (fun sg => calcN n (CircuitState.mk (s.gates.map f) s.wires) sg)
          (fun sg => ih sg) g) 0 g.inputs]

/-- On an all-`null` slot array the free-slot search can only pick index 0
(the callback's value depends only on the entry's value, and every entry is
the same `null`). -/
theorem jsFindIndex_null_eq_zero (p : Option String → Bool) (l : List (Option String))
    (hl : ∀ x ∈ l, x = none) (j : Nat) (h : jsFindIndex p l = some j) : j = 0 := by
  obtain ⟨hj, hpj, hmin⟩ := jsFindIndex_spec p l j h
  by_contra hne
  have h0 : 0 < j := Nat.pos_of_ne_zero hne
  have h0len : 0 < l.length := Nat.lt_trans h0 hj
  have hfalse := hmin 0 h0len h0
  rw [hl _ (List.get_mem l 0 h0len)] at hfalse
  rw [hl _ (List.get_mem l j hj)] at hpj
  rw [hpj] at hfalse
  exact absurd hfalse (by decide)

/-- `indexOf(null)` is 0 on a nonempty all-`null` array. -/
theorem jsIndexOf_head_none (l : List (Option String)) (hl : ∀ x ∈ l, x = none)
    (hne : 0 < l.length) : jsIndexOf l none = 0 := by
  cases l with
  | nil => simp at hne
  | cons b t =>
    rw [jsIndexOf, if_pos (hl b (List.mem_cons_self b t))]

/-- Rewriting stored outputs touches neither slot arrays nor wires. -/
theorem stateInv_gates_map (s : CircuitState) (f : Gate → Gate)
    (hin : ∀ g, (f g).inputs = g.inputs) (h : StateInv s) :
    StateInv (CircuitState.mk (s.gates.map f) s.wires) := by
  constructor
  · intro g hg
    rcases List.mem_map.1 hg with ⟨g0, hg0, rfl⟩
    rw [hin g0]
    exact h.1 g0 hg0
  · exact h.2

theorem stateInv_updateCircuit (s : CircuitState) (h : StateInv s) :
    StateInv (updateCircuit s) :=
  stateInv_gates_map s _ (fun g => rfl) h

theorem stateInv_clear : StateInv clearCircuit := by
  constructor <;> intro a ha <;> simp [clearCircuit] at ha

theorem stateInv_addGate (s : CircuitState) (id : String) (ty : GateType) (x y : Int)
    (h : StateInv s) : StateInv (addGate s id ty x y) := by
  constructor
  · intro g hg
    simp only [addGate] at hg
    rcases List.mem_append.1 hg with hg0 | hg1
    · exact h.1 g hg0
    · have hgeq := List.mem_singleton.1 hg1
      subst hgeq
      intro x0 hx0
      simp only at hx0
      split at hx0
      · simpa using hx0
      · split at hx0
        · simpa using hx0
        · rcases List.mem_cons.1 hx0 with h1 | h1
          · exact h1
          · simpa using h1
  · intro w hw
    exact h.2 w hw

theorem stateInv_toggleInput (s : CircuitState) (gid : String) (h : StateInv s) :
    StateInv (toggleInput s gid) :=
  stateInv_gates_map s _
    (fun g => by cases hc : (g.id == gid && g.type == GateType.INPUT) <;> simp [hc]) h

theorem stateInv_moveGate (s : CircuitState) (gid : String) (x y : Int) (h : StateInv s) :
    StateInv (moveGate s gid x y) :=
  stateInv_gates_map s _
    (fun g => by cases hc : (g.id == gid) <;> simp [hc]) h

theorem stateInv_deleteSelected (s : CircuitState) (sel : Option String) (h : StateInv s) :
    StateInv (deleteSelected s sel) := by
  cases sel with
  | none => exact h
  | some sid =>
    constructor
    · intro g hg
      exact h.1 g (List.mem_filter.1 hg).1
    · intro w hw
      exact h.2 w (List.mem_filter.1 hw).1

/-- Unfolding equation of `completeConnectionStep`. -/
theorem completeConnectionStep_eq (s : CircuitState) (cf sel : Option String) (wid : String) :
    completeConnectionStep s cf sel wid =
      match (completeConnection s cf sel wid).2 with
      | ConnOutcome.connected _ => updateCircuit (completeConnection s cf sel wid).1
      | _ => (completeConnection s cf sel wid).1 := rfl

theorem stateInv_connectStep (s : CircuitState) (cf sel : Option String) (wid : String)
    (h : StateInv s) : StateInv (completeConnectionStep s cf sel wid) := by
  rcases completeConnection_cases s cf sel wid with hc | hc |
    ⟨cfId, selId, toGate, j, hcf, hsel, hfind, hty, hidx, hc⟩
  · rw [completeConnectionStep_eq, hc]; exact h
  · rw [completeConnectionStep_eq, hc]; exact h
  · rw [completeConnectionStep_eq, hc]
    have htg : toGate ∈ s.gates := List.mem_of_find?_eq_some hfind
    have hj0 : j = 0 :=
      jsFindIndex_null_eq_zero (connPred s toGate) toGate.inputs (h.1 toGate htg) j hidx
    subst hj0
    apply stateInv_updateCircuit
    constructor
    · intro g hg
      exact h.1 g hg
    · intro w hw
      rcases List.mem_append.1 hw with hw0 | hw1
      · exact h.2 w hw0
      · have hweq := List.mem_singleton.1 hw1
        subst hweq
        rfl

/-- Every reachable state has all-`null` slot arrays and slot-0 wires. -/
theorem reachable_inv (s : CircuitState) (h : Reachable s) : StateInv s := by
  induction h with
  | init => exact stateInv_clear
  | add s id ty x y hr ih =>
    show StateInv (if inputSig (addGate s id ty x y) = inputSig s
      then addGate s id ty x y else updateCircuit (addGate s id ty x y))
    split
    · exact stateInv_addGate s id ty x y ih
    · exact stateInv_updateCircuit _ (stateInv_addGate s id ty x y ih)
  | toggle s gid hr ih =>
    show StateInv (if inputSig (toggleInput s gid) = inputSig s
      then toggleInput s gid else updateCircuit (toggleInput s gid))
    split
    · exact stateInv_toggleInput s gid ih
    · exact stateInv_updateCircuit _ (stateInv_toggleInput s gid ih)
  | move s gid x y hr ih =>
    show StateInv (if inputSig (moveGate s gid x y) = inputSig s
      then moveGate s gid x y else updateCircuit (moveGate s gid x y))
    split
    · exact stateInv_moveGate s gid x y ih
    · exact stateInv_updateCircuit _ (stateInv_moveGate s gid x y ih)
  | connect s cf sel wid hr ih =>
    exact stateInv_connectStep s cf sel wid ih
  | delete s sel hr ih =>
    cases sel with
    | none => exact ih
    | some sid =>
      exact stateInv_updateCircuit _ (stateInv_deleteSelected s (some sid) ih)
  | clear s hr ih =>
    exact stateInv_updateCircuit _ stateInv_clear

theorem reachable_sCyc : Reachable sCyc :=
  Reachable.connect (addGateStep clearCircuit ("n1") GateType.NOT 0 0)
    (some ("n1")) (some ("n1")) ("w1")
    (Reachable.add clearCircuit ("n1") GateType.NOT 0 0 Reachable.init)

theorem reachable_sTwo : Reachable sTwo :=
  Reachable.add (addGateStep clearCircuit ("A2") GateType.INPUT 0 0)
    ("B2") GateType.AND 0 0
    (Reachable.add clearCircuit ("A2") GateType.INPUT 0 0 Reachable.init)

/-- C1: the claim says a slot driven by a wire whose source gate exists takes
the recursively computed output of the source gate, so an OR gate with one
slot wired to an INPUT gate storing `true` evaluates to `true`.  The code
contradicts it: in `sScenario3` the wire from the INPUT gate (whose own
evaluation is `some true`) into slot 0 of the OR gate is present, yet the
evaluator returns `false` for the OR gate at every recursion depth, because
the OR gate's `inputs[0]` is `null` and the wire lookup is short-circuited. -/
theorem claimC1_wired_or_gate_evaluates_false :
    (wireAB ∈ sScenario3.wires ∧ wireAB.toGateId = gateB.id ∧ wireAB.toInputIndex = 0 ∧
      gateA ∈ sScenario3.gates ∧ gateA.id = wireAB.fromGateId ∧
      gateA.type = GateType.INPUT ∧ gateB.type = GateType.OR ∧
      (∀ n : Nat, calcN (n + 1) sScenario3 gateA = some true)) ∧
    (∀ n : Nat, calcN (n + 1) sScenario3 gateB = some false) := by
  constructor
  · refine ⟨by decide, by decide, by decide, by decide, by decide, by decide, by decide, ?_⟩
    intro n
    rw [calc_null sScenario3 gateA (by decide) n]
    decide
  · intro n
    rw [calc_null sScenario3 gateB (by decide) n]
    decide

/-- C2: once a wire terminates at a (gate, slot) pair, no run of
`completeConnection` targeting that gate can ever install a second wire at
that same slot (the search only picks free slots), and when the run fails
with the all-connected alert the state is returned unchanged. -/
theorem claimC2_second_driver_rejected (s : CircuitState) (cf : Option String)
    (gid wid : String) (i : Nat)
    (hocc : ∃ w ∈ s.wires, w.toGateId = gid ∧ w.toInputIndex = i) :
    ((completeConnection s cf (some gid) wid).2 ≠ ConnOutcome.connected i) ∧
    ((completeConnection s cf (some gid) wid).2 = ConnOutcome.allConnected →
      (completeConnection s cf (some gid) wid).1 = s) := by
  obtain ⟨w0, hw0, hw0g, hw0i⟩ := hocc
  rcases completeConnection_cases s cf (some gid) wid with hc | hc |
    ⟨cfId, selId, toGate, j, hcf, hsel, hfind, hty, hidx, hc⟩
  · rw [hc]; exact ⟨by simp, fun _ => rfl⟩
  · rw [hc]; exact ⟨by simp, fun _ => rfl⟩
  · rw [hc]
    have htid : toGate.id = selId := by
      have h2 := List.find?_some hfind
      rwa [beq_iff_eq] at h2
    have hgsel : gid = selId := by injection hsel
    constructor
    · intro habs
      have hji : j = i := by simpa using habs
      apply connected_slot_free s toGate j hidx w0 hw0
      constructor
      · rw [hw0g, htid]
        exact hgsel
      · rw [hw0i, hji]
    · intro habs
      simp at habs

theorem claimC2_witness :
    ((completeConnection sCyc (some ("n1")) (some ("n1")) ("w2")).2 ≠
      ConnOutcome.connected 0) ∧
    ((completeConnection sCyc (some ("n1")) (some ("n1")) ("w2")).2 =
        ConnOutcome.allConnected →
      (completeConnection sCyc (some ("n1")) (some ("n1")) ("w2")).1 = sCyc) :=
  claimC2_second_driver_rejected sCyc (some ("n1")) ("n1") ("w2") 0 (by decide)

/-- C3: the claim says every mutation event leaves every stored gate output
equal to its freshly evaluated value, naming the freshly added NOT gate as
an example.  The code contradicts it: adding a NOT gate to the empty
circuit changes neither the wires dependency nor the INPUT-signature
dependency of the refresh effect, so no recomputation runs; the stored
output stays `false` while the evaluator yields `true` at every depth. -/
theorem claimC3_fresh_not_gate_stale :
    Reachable sNotFresh ∧ sNotFresh.gates = [gateNFresh] ∧ gateNFresh.output = false ∧
    (∀ n : Nat, calcN (n + 1) sNotFresh gateNFresh = some true) := by
  refine ⟨Reachable.add clearCircuit ("g") GateType.NOT 0 0 Reachable.init,
    by decide, by decide, ?_⟩
  intro n
  rw [calc_null sNotFresh gateNFresh (by decide) n]
  decide

/-- C4: deleting a gate removes, in the same state transition, the gate and
every wire whose source or destination is that gate: afterwards no gate and
no wire carries the deleted id. -/
theorem claimC4_delete_removes_incident_wires (s : CircuitState) (sid : String) :
    ((deleteSelectedStep s (some sid)).gates.all (fun g => !(g.id == sid)) = true) ∧
    ((deleteSelectedStep s (some sid)).wires.all
      (fun w => !(w.fromGateId == sid) && !(w.toGateId == sid)) = true) := by
  constructor
  · rw [List.all_eq_true]
    intro g hg
    have hg2 : g ∈ (deleteSelected s (some sid)).gates.map (fun g =>
        { g with output := (calcN ((deleteSelected s (some sid)).gates.length + 1)
            (deleteSelected s (some sid)) g).getD false }) := hg
    rcases List.mem_map.1 hg2 with ⟨g0, hg0, rfl⟩
    have hg3 : g0 ∈ s.gates.filter (fun g => !(g.id == sid)) := hg0
    exact (List.mem_filter.1 hg3).2
  · rw [List.all_eq_true]
    intro w hw
    have hw2 : w ∈ s.wires.filter
        (fun w => !(w.fromGateId == sid) && !(w.toGateId == sid)) := hw
    exact (List.mem_filter.1 hw2).2

/-- C5: on every reachable state — including states with cyclic wiring —
evaluating any gate of the graph terminates with a boolean: at every
positive recursion budget the result is `some` of the gate's default value,
independently of the budget, because no reachable slot entry ever triggers
the recursive descent. -/
theorem claimC5_reachable_eval_terminates (s : CircuitState) (h : Reachable s) :
    ∀ g ∈ s.gates, ∀ n : Nat, calcN (n + 1) s g = some (gateDefaultOut g) := by
  intro g hg n
  exact calc_null s g ((reachable_inv s h).1 g hg) n

theorem claimC5_witness : calcN (4 + 1) sCyc gateNCyc = some true := by
  have h := claimC5_reachable_eval_terminates sCyc reachable_sCyc gateNCyc (by decide) 4
  rw [h]
  decide

/-- C6: an AND or OR gate with two slots and no incoming wire evaluates to
`false`; a NOT gate with one slot and no incoming wire evaluates to `true`;
in both cases evaluation returns a value (`some`), never an error. -/
theorem claimC6_unconnected_gate_defaults (s : CircuitState) (g : Gate)
    (hno : ∀ w ∈ s.wires, w.toGateId ≠ g.id) :
    ((g.type = GateType.AND ∨ g.type = GateType.OR) → g.inputs.length = 2 →
      ∀ n : Nat, calcN (n + 1) s g = some false) ∧
    (g.type = GateType.NOT → g.inputs.length = 1 →
      ∀ n : Nat, calcN (n + 1) s g = some true) := by
  constructor
  · intro hty hlen n
    rw [calc_nowire s g hno n, gateDefaultOut]
    have hni : ¬(g.type = GateType.INPUT) := by
      rcases hty with h | h <;> rw [h] <;> decide
    rw [if_neg hni, hlen]
    rcases hty with h | h <;> rw [h] <;> decide
  · intro hty hlen n
    rw [calc_nowire s g hno n, gateDefaultOut]
    have hni : ¬(g.type = GateType.INPUT) := by rw [hty]; decide
    rw [if_neg hni, hty, hlen]
    decide

theorem claimC6_witness :
    calcN (0 + 1) sNoWire gateAater = some false ∧
    calcN (0 + 1) sNoWire gateNater = some true :=
  ⟨(claimC6_unconnected_gate_defaults sNoWire gateAater (by decide)).1 (Or.inl rfl) rfl 0,
   (claimC6_unconnected_gate_defaults sNoWire gateNater (by decide)).2 rfl rfl 0⟩

/-- C7: the claim says toggling a non-INPUT gate fails with an observable
`NotAnInputGate` error.  The code contradicts it: `toggleInput` on the id
of an AND gate returns the state unchanged with no error of any kind, while
the specification's `setInputValue` is required to report the error. -/
theorem claimC7_counterexample :
    toggleInput sOnlyAnd ("a") = sOnlyAnd ∧
    specSetInputValue sOnlyAnd ("a") true = Except.error StoreError.notAnInputGate :=
  ⟨by decide, rfl⟩

/-- C7 (amended): toggling a gate id that names no INPUT gate is a silent
no-op: the graph is returned unchanged, and no error is produced or
observable by the caller. -/
theorem claimC7_toggle_non_input_noop (s : CircuitState) (gid : String)
    (h : ∀ g ∈ s.gates, g.id = gid → g.type ≠ GateType.INPUT) :
    toggleInput s gid = s := by
  have hmap : s.gates.map (fun g =>
      if g.id == gid && g.type == GateType.INPUT then { g with output := !g.output } else g) =
      s.gates := by
    apply map_id_of_mem
    intro g hg
    by_cases h1 : g.id = gid
    · have h2 := h g hg h1
      have h3 : (g.type == GateType.INPUT) = false := by
        cases h4 : (g.type == GateType.INPUT)
        · rfl
        · exact absurd (by rwa [beq_iff_eq] at h4) h2
      simp [h3]
    · have h3 : (g.id == gid) = false := by
        cases h4 : (g.id == gid)
        · rfl
        · exact absurd (by rwa [beq_iff_eq] at h4) h1
      simp [h3]
  show { s with gates := s.gates.map (fun g =>
      if g.id == gid && g.type == GateType.INPUT then { g with output := !g.output } else g) } = s
  rw [hmap]

theorem claimC7_witness : toggleInput sOnlyAnd ("a") = sOnlyAnd :=
  claimC7_toggle_non_input_noop sOnlyAnd ("a") (by decide)

/-- C8: the whole-graph refresh is idempotent on every state: running
`updateCircuit` twice is the same as running it once, so the second pass
changes no gate's output.  (The only stored outputs the evaluator reads are
those of INPUT gates, and the refresh preserves exactly those.) -/
theorem claimC8_update_idempotent (s : CircuitState) :
    updateCircuit (updateCircuit s) = updateCircuit s := by
  have hmain : ∀ g : Gate,
      calcN (s.gates.length + 1) (updateCircuit s)
        ({ g with output := (calcN (s.gates.length + 1) s g).getD false }) =
      calcN (s.gates.length + 1) s g := by
    intro g
    exact calcN_map_output s
      (fun g0 => { g0 with output := (calcN (s.gates.length + 1) s g0).getD false })
      (fun g0 => rfl) (fun g0 => rfl) (fun g0 => rfl)
      (fun g0 hI => by
        show (calcN (s.gates.length + 1) s g0).getD false = g0.output
        rw [calcN_succ, if_pos hI]
        rfl)
      (s.gates.length + 1) g
  have hlen : (updateCircuit s).gates.length = s.gates.length := by
    show (s.gates.map _).length = s.gates.length
    rw [List.length_map]
  have hgates : (updateCircuit s).gates.map (fun g =>
      { g with output := (calcN ((updateCircuit s).gates.length + 1)
          (updateCircuit s) g).getD false }) = (updateCircuit s).gates := by
    rw [hlen]
    show (s.gates.map (fun g0 =>
        { g0 with output := (calcN (s.gates.length + 1) s g0).getD false })).map
        (fun g => { g with output := (calcN (s.gates.length + 1) (updateCircuit s) g).getD false }) =
      s.gates.map (fun g0 => { g0 with output := (calcN (s.gates.length + 1) s g0).getD false })
    rw [List.map_map]
    apply List.map_congr_left
    intro g hg
    show { { g with output := (calcN (s.gates.length + 1) s g).getD false } with
        output := (calcN (s.gates.length + 1) (updateCircuit s)
          ({ g with output := (calcN (s.gates.length + 1) s g).getD false })).getD false } =
      { g with output := (calcN (s.gates.length + 1) s g).getD false }
    rw [hmain g]
  show { updateCircuit s with gates := (updateCircuit s).gates.map (fun g =>
      { g with output := (calcN ((updateCircuit s).gates.length + 1)
          (updateCircuit s) g).getD false }) } = updateCircuit s
  rw [hgates]

/-- C9: in every reachable state every entry of every gate's `inputs` array
is `null`, and consequently the evaluator's per-slot wire lookup and
recursive descent are never reached: evaluation at any positive budget
coincides with evaluation at budget 1. -/
theorem claimC9_inputs_always_null (s : CircuitState) (h : Reachable s) :
    (s.gates.all (fun g => g.inputs.all Option.isNone) = true) ∧
    (∀ g ∈ s.gates, ∀ n : Nat, calcN (n + 1) s g = calcN 1 s g) := by
  have hinv := reachable_inv s h
  constructor
  · rw [List.all_eq_true]
    intro g hg
    rw [List.all_eq_true]
    intro x hx
    rw [Option.isNone_iff_eq_none]
    exact hinv.1 g hg x hx
  · intro g hg n
    have h1 : calcN 1 s g = some (gateDefaultOut g) := calc_null s g (hinv.1 g hg) 0
    rw [calc_null s g (hinv.1 g hg) n, h1]

theorem claimC9_witness :
    (sTwo.gates.all (fun g => g.inputs.all Option.isNone) = true) ∧
    (calcN (4 + 1) sTwo gateBAnd = calcN 1 sTwo gateBAnd) :=
  ⟨(claimC9_inputs_always_null sTwo reachable_sTwo).1,
   (claimC9_inputs_always_null sTwo reachable_sTwo).2 gateBAnd (by decide) 4⟩

/-- C10: in every reachable state every wire ends at slot 0; the free-slot
search can only answer slot 0 or fail; and once any wire ends at a gate, no
further wire can be added to that gate at all (the call returns the state
unchanged). -/
theorem claimC10_all_wires_slot_zero (s : CircuitState) (h : Reachable s) :
    (s.wires.all (fun w => w.toInputIndex == 0) = true) ∧
    (∀ (gid : String) (cf : Option String) (wid : String),
      s.wires.any (fun w => w.toGateId == gid) = true →
      (completeConnection s cf (some gid) wid).1 = s) ∧
    (∀ (cf sel : Option String) (wid : String) (j : Nat),
      (completeConnection s cf sel wid).2 = ConnOutcome.connected j → j = 0) := by
  have hinv := reachable_inv s h
  refine ⟨?_, ?_, ?_⟩
  · rw [List.all_eq_true]
    intro w hw
    rw [beq_iff_eq]
    exact hinv.2 w hw
  · intro gid cf wid hany
    rcases completeConnection_cases s cf (some gid) wid with hc | hc |
      ⟨cfId, selId, toGate, j, hcf, hsel, hfind, hty, hidx, hc⟩
    · rw [hc]
    · rw [hc]
    · exfalso
      have htg : toGate ∈ s.gates := List.mem_of_find?_eq_some hfind
      have hnull := hinv.1 toGate htg
      obtain ⟨hj, hpj, hmin⟩ := jsFindIndex_spec _ _ j hidx
      have hlen : 0 < toGate.inputs.length := Nat.lt_of_le_of_lt (Nat.zero_le j) hj
      have hgetj : toGate.inputs.get ⟨j, hj⟩ = none := hnull _ (List.get_mem _ _ _)
      rw [hgetj] at hpj
      rw [connPred, Bool.not_eq_true', List.any_eq_false] at hpj
      obtain ⟨w0, hw0, hw0g⟩ := List.any_eq_true.1 hany
      apply hpj w0 hw0
      rw [Bool.and_eq_true]
      have htid : toGate.id = selId := by
        have h2 := List.find?_some hfind
        rwa [beq_iff_eq] at h2
      have hgsel : gid = selId := by injection hsel
      constructor
      · rw [beq_iff_eq]
        rw [beq_iff_eq] at hw0g
        rw [hw0g, htid, hgsel]
      · rw [beq_iff_eq, jsIndexOf_head_none toGate.inputs hnull hlen, hinv.2 w0 hw0]
        simp
  · intro cf sel wid j hconn
    rcases completeConnection_cases s cf sel wid with hc | hc |
      ⟨cfId, selId, toGate, j', hcf, hsel, hfind, hty, hidx, hc⟩
    · rw [hc] at hconn; simp at hconn
    · rw [hc] at hconn; simp at hconn
    · rw [hc] at hconn
      have hjj : j' = j := by simpa using hconn
      have htg : toGate ∈ s.gates := List.mem_of_find?_eq_some hfind
      have hz := jsFindIndex_null_eq_zero _ _ (hinv.1 toGate htg) j' hidx
      omega

theorem claimC10_witness :
    (sCyc.wires.all (fun w => w.toInputIndex == 0) = true) ∧
    ((completeConnection sCyc (some ("n1")) (some ("n1")) ("w3")).1 = sCyc) :=
  ⟨(claimC10_all_wires_slot_zero sCyc reachable_sCyc).1,
   (claimC10_all_wires_slot_zero sCyc reachable_sCyc).2.1 ("n1") (some ("n1")) ("w3")
     (by decide)⟩
